import Mathlib

/-!
Shallow embedding of the `always-memo` storage core
(`electron/storage.ts`) and of the `memo-image` retrieval boundary
(`electron/main.ts`).

Modelling conventions:
* JSON values are the inductive `Json`; JavaScript numbers are modelled as
  exact rationals (`ℚ`), so arithmetic (`normalizeImageDimensions`) is exact.
* File contents are `FileData`: `jsonText j` stands for the UTF-8
  `JSON.stringify` serialization of the JSON value `j`, `rawText s` for text
  that is not valid JSON, `bytes bs` for a binary payload.  `JSON.parse`
  is the projection `parseJson` (so the library contract
  `JSON.parse (JSON.stringify x) = x` holds by construction); the storage
  logic built on top of it is modelled faithfully from the source.
* The filesystem is a path-to-content association list `FS`; the fallible
  primitives (`mkdir`, `writeFile`, `rename`, `readFile`) succeed or fail
  according to an explicit environment `Env`, which also supplies the
  clock readings (`new Date().toISOString()`, `Date.now()`) and the value
  of `randomUUID()`.
* The `join` of `node:path` is modelled as joining with `/` (no arguments in the
  program carry `.` / `..` segments, so normalization never fires).
-/

/-- JSON values (JavaScript numbers modelled as exact rationals). -/
inductive Json where
  | null : Json
  | bool (b : Bool) : Json
  | num (q : ℚ) : Json
  | str (s : String) : Json
  | arr (elems : List Json) : Json
  | obj (fields : List (String × Json)) : Json

/-- Field access on a JSON object (`value.key` in JavaScript); `none` models
`undefined`. -/
def lookupField : List (String × Json) → String → Option Json
  | [], _ => none
  | (k, v) :: rest, key => if k = key then some v else lookupField rest key

/-- Models `value.key` on an arbitrary JSON value: only objects have fields. -/
def Json.getField : Json → String → Option Json
  | .obj fields, key => lookupField fields key
  | _, _ => none

/-- JavaScript truthiness of a parsed JSON value (`!!v`). -/
def Json.isTruthy : Json → Bool
  | .null => false
  | .bool b => b
  | .num q => decide (q ≠ 0)
  | .str s => decide (s ≠ "")
  | .arr _ => true
  | .obj _ => true

/-- Truthiness of a possibly-missing field (`undefined` is falsy). -/
def truthyOpt : Option Json → Bool
  | none => false
  | some j => j.isTruthy

/-- Models the test that `value` is truthy with `typeof value` equal to
`object`, on a parsed JSON value: `null` is falsy, and among JSON values
exactly arrays and objects have that `typeof`. -/
def Json.isObjectLike : Json → Bool
  | .arr _ => true
  | .obj _ => true
  | _ => false

/-- Content of one file. `jsonText j` is the serialization of `j`;
`rawText` is text that does not parse as JSON; `bytes` is binary data. -/
inductive FileData where
  | jsonText (j : Json) : FileData
  | rawText (s : String) : FileData
  | bytes (bs : List Nat) : FileData

/-- Models `JSON.parse` on a file read as UTF-8 text: the serialization of `j`
parses back to `j`, anything else fails. -/
def parseJson : FileData → Option Json
  | .jsonText j => some j
  | _ => none

/-- The filesystem: an association list from absolute paths to contents. -/
def FS := List (String × FileData)

/-- Content stored at path `p`, if any. -/
def fsLookup : FS → String → Option FileData
  | [], _ => none
  | (k, v) :: rest, p => if k = p then some v else fsLookup rest p

/-- Remove every binding of path `p`. -/
def fsRemove : FS → String → FS
  | [], _ => []
  | (k, v) :: rest, p => if k = p then fsRemove rest p else (k, v) :: fsRemove rest p

/-- Models `writeFile p d`: `p` now stores `d`, other paths unchanged. -/
def fsWrite (fs : FS) (p : String) (d : FileData) : FS :=
  (p, d) :: fsRemove fs p

/-- Models `rename src dst` when `src` exists; when `src` is absent the filesystem
is returned unchanged (the callers below either know `src` exists or
swallow the failure). -/
def fsRename (fs : FS) (src dst : String) : FS :=
  match fsLookup fs src with
  | none => fs
  | some d => fsWrite (fsRemove fs src) dst d

/-- Environment of one run: outcomes of the fallible filesystem primitives,
the clock readings and the generated UUID. -/
structure Env where
  mkdirOk : Bool
  writeOk : Bool
  renameOk : Bool
  readErr : Option String
  remnant : FileData
  now : String
  nowMs : Nat
  freshId : String

/-- Models `readFile p`: a forced error (`Env.readErr`, e.g. `"EACCES"`), the stored
content, or the error code `"ENOENT"` when the path is absent. -/
def fsRead (env : Env) (fs : FS) (p : String) : Except String FileData :=
  match env.readErr with
  | some code => .error code
  | none =>
    match fsLookup fs p with
    | some d => .ok d
    | none => .error "ENOENT"

/-- Errors surfaced by the storage operations (IOError class of the spec). -/
inductive IoError where
  | mkdirFailed : IoError
  | writeFailed : IoError
  | renameFailed : IoError

/-- The `StoragePaths` type (storage.ts). -/
structure StoragePaths where
  memoFilePath : String
  imagesDirPath : String

def MEMO_FILENAME : String := "memo.json"

def IMAGES_DIRNAME : String := "images"

def MAX_IMAGE_WIDTH : ℚ := 640

/-- Models `path.join` restricted to the plain segments this program uses. -/
def pathJoin (a b : String) : String := a ++ "/" ++ b

/-- The `createStoragePaths` function (storage.ts). -/
def createStoragePaths (userDataPath : String) : StoragePaths :=
  { memoFilePath := pathJoin userDataPath MEMO_FILENAME
    imagesDirPath := pathJoin userDataPath IMAGES_DIRNAME }

/-- One character of the class `[a-f0-9-]` under the `i` flag, i.e.
`[0-9a-fA-F-]`. -/
def isHexHyphenChar (c : Char) : Bool :=
  decide (('a' ≤ c ∧ c ≤ 'f') ∨ ('A' ≤ c ∧ c ≤ 'F') ∨ ('0' ≤ c ∧ c ≤ '9') ∨ c = '-')

/-- The `isValidImageId` function (storage.ts): `IMAGE_ID_PATTERN.test(id)` with
`IMAGE_ID_PATTERN = /^[a-f0-9-]+$/i`, i.e. the string is nonempty and every
character is a hexadecimal digit or a hyphen. -/
def isValidImageId (id : String) : Bool :=
  !id.data.isEmpty && id.data.all isHexHyphenChar

/-- The error thrown by `imagePathForId` (a `new Error` carrying the message
Invalid image id). -/
inductive PathError where
  | invalidIdentifier : PathError

/-- The `imagePathForId` function (storage.ts): validation happens first; the joined path
is only constructed on the success branch, and no filesystem access occurs
(the function takes no filesystem at all). -/
def imagePathForId (paths : StoragePaths) (id : String) : Except PathError String :=
  if !isValidImageId id then .error .invalidIdentifier
  else .ok (pathJoin paths.imagesDirPath (id ++ ".png"))

/-- Display dimensions; JavaScript numbers modelled as exact rationals. -/
structure Dimensions where
  width : ℚ
  height : ℚ

/-- The `normalizeImageDimensions` function (storage.ts), in exact rational
arithmetic: `Math.round` is modelled by the Mathlib `round` (both are
`⌊x + 1/2⌋`). -/
def normalizeImageDimensions (width height : ℚ) : Dimensions :=
  if width ≤ 0 ∨ height ≤ 0 then ⟨0, 0⟩
  else if width ≤ MAX_IMAGE_WIDTH then ⟨width, height⟩
  else
    let ratio := MAX_IMAGE_WIDTH / width
    ⟨((round (width * ratio) : ℤ) : ℚ), ((round (height * ratio) : ℤ) : ℚ)⟩

/-- The `nowIso` function returns `new Date().toISOString()`; in the embedding the clock
reading is supplied by the environment. -/
def nowIso (env : Env) : String := env.now

/-- The `defaultDoc` value (storage.ts): the empty single-paragraph Tiptap
document. -/
def defaultDocJson : Json :=
  .obj [("type", .str "doc"),
        ("content", .arr [.obj [("type", .str "paragraph")]])]

/-- The JSON object `{version: 1, updatedAt, doc}`. -/
def recordJson (updatedAt : String) (doc : Json) : Json :=
  .obj [("version", .num 1), ("updatedAt", .str updatedAt), ("doc", doc)]

/-- The `fallbackRecord` function (storage.ts). -/
def fallbackRecord (env : Env) : Json :=
  recordJson (nowIso env) defaultDocJson

/-- Models `candidate.version === 1` on the possibly-missing `version` field. -/
def versionIsOne : Option Json → Bool
  | some (.num q) => decide (q = 1)
  | _ => false

/-- Models the test that `typeof candidate.updatedAt` is the string type. -/
def updatedAtIsString : Option Json → Bool
  | some (.str _) => true
  | _ => false

/-- The `isMemoRecord` predicate (storage.ts): `value` is truthy and of
object `typeof`, `candidate.version === 1`, `typeof candidate.updatedAt`
is the string type, and `!!candidate.doc`. -/
def isMemoRecord (value : Json) : Bool :=
  if !value.isObjectLike then false
  else
    versionIsOne (value.getField "version")
    && updatedAtIsString (value.getField "updatedAt")
    && truthyOpt (value.getField "doc")

/-- The quarantine path `` `${paths.memoFilePath}.corrupt-${Date.now()}` ``. -/
def quarantinePath (paths : StoragePaths) (ms : Nat) : String :=
  paths.memoFilePath ++ ".corrupt-" ++ toString ms

/-- The catch block of `loadMemo`: `code` is the `code` field of the caught
error (`none` for `JSON.parse` / schema errors, which carry no code).
`ENOENT` returns the fallback directly; every other error attempts the
best-effort quarantine rename (its own failure is swallowed) and returns the
fallback. -/
def loadMemoCatch (env : Env) (fs : FS) (paths : StoragePaths) (code : Option String) :
    Except IoError (Json × FS) :=
  let fallback := fallbackRecord env
  if code = some "ENOENT" then .ok (fallback, fs)
  else
    let backupPath := quarantinePath paths env.nowMs
    let fs1 := if env.renameOk then fsRename fs paths.memoFilePath backupPath else fs
    .ok (fallback, fs1)

/-- The `ensureStorageDirs` function creates directories only (it never touches the file
map); it is modelled as a fallible no-op, failing when `Env.mkdirOk` is
false.  Note that in `loadMemo` it runs *outside* the try/catch. -/
def ensureStorageDirsOk (env : Env) : Bool := env.mkdirOk

/-- The `loadMemo` function (storage.ts): ensure dirs, read the file, `JSON.parse` it,
check `isMemoRecord`; any failure inside the try block goes to
`loadMemoCatch`.  Returns the loaded record together with the resulting
filesystem. -/
def loadMemo (env : Env) (fs : FS) (paths : StoragePaths) :
    Except IoError (Json × FS) :=
  if !ensureStorageDirsOk env then .error .mkdirFailed
  else
    match fsRead env fs paths.memoFilePath with
    | .error code => loadMemoCatch env fs paths (some code)
    | .ok raw =>
      match parseJson raw with
      | none => loadMemoCatch env fs paths none
      | some parsed =>
        if isMemoRecord parsed then .ok (parsed, fs)
        else loadMemoCatch env fs paths none

/-- The `SaveMemoResponse` type (shared/types.ts). -/
structure SaveMemoResponse where
  ok : Bool
  updatedAt : String

/-- The temporary sibling path `` `${paths.memoFilePath}.tmp` ``. -/
def tempPathOf (paths : StoragePaths) : String :=
  paths.memoFilePath ++ ".tmp"

/-- The `saveMemo` function (storage.ts): ensure dirs, build the payload
`{version: 1, updatedAt: nowIso(), doc}`, write its serialization to the
temporary sibling path, rename the temporary path onto the document path.
The filesystem reached at the point of failure is returned alongside the
outcome; a failed `writeFile` may leave arbitrary partial content
(`Env.remnant`) at the temporary path, but only there. -/
def saveMemo (env : Env) (fs : FS) (paths : StoragePaths) (doc : Json) :
    Except IoError SaveMemoResponse × FS :=
  if !ensureStorageDirsOk env then (.error .mkdirFailed, fs)
  else
    let payload := recordJson (nowIso env) doc
    let tempPath := tempPathOf paths
    if !env.writeOk then (.error .writeFailed, fsWrite fs tempPath env.remnant)
    else
      let fs1 := fsWrite fs tempPath (.jsonText payload)
      if !env.renameOk then (.error .renameFailed, fs1)
      else (.ok ⟨true, nowIso env⟩, fsRename fs1 tempPath paths.memoFilePath)

/-- The filesystem states traversed by `saveMemo`, in order, up to the point
where it returns: initial state, state after the `writeFile` of the
temporary path, state after the `rename`. -/
def saveMemoStates (env : Env) (fs : FS) (paths : StoragePaths) (doc : Json) :
    List FS :=
  if !ensureStorageDirsOk env then [fs]
  else
    let payload := recordJson (nowIso env) doc
    let tempPath := tempPathOf paths
    if !env.writeOk then [fs, fsWrite fs tempPath env.remnant]
    else
      let fs1 := fsWrite fs tempPath (.jsonText payload)
      if !env.renameOk then [fs, fs1]
      else [fs, fs1, fsRename fs1 tempPath paths.memoFilePath]

/-- The `ImageSaveResponse` type (shared/types.ts). -/
structure ImageSaveResponse where
  id : String
  src : String
  width : ℚ
  height : ℚ

/-- The `saveImage` function (storage.ts): ensure dirs, generate `randomUUID()` (supplied
by the environment), write the payload bytes unmodified to
`<imagesDir>/<id>.png`, normalize the reported dimensions, and return the
response. -/
def saveImage (env : Env) (fs : FS) (paths : StoragePaths)
    (imageBuffer : List Nat) (width height : ℚ) :
    Except IoError ImageSaveResponse × FS :=
  if !ensureStorageDirsOk env then (.error .mkdirFailed, fs)
  else
    let id := env.freshId
    let filename := id ++ ".png"
    let imagePath := pathJoin paths.imagesDirPath filename
    if !env.writeOk then (.error .writeFailed, fsWrite fs imagePath env.remnant)
    else
      let fs1 := fsWrite fs imagePath (.bytes imageBuffer)
      let normalized := normalizeImageDimensions width height
      (.ok ⟨id, "memo-image://" ++ id, normalized.width, normalized.height⟩, fs1)

/-- Body of an HTTP `Response` in the `memo-image` protocol handler. -/
inductive ResponseBody where
  | text (s : String) : ResponseBody
  | binary (d : FileData) : ResponseBody

/-- An HTTP `Response` as constructed by the `memo-image` protocol handler. -/
structure HttpResponse where
  status : Nat
  body : ResponseBody

/-- The memo-image protocol handler callback registered in main.ts, taking the
result of `imageIdFromRequestUrl(request.url)` (the identifier extracted
from the locator, `none` when extraction yielded `null`): `null` extraction
and an `imagePathForId` throw both yield 400 Bad request; a read failure on
the validated path yields 404 Not found; success yields the bytes with
status 200 and the fixed `image/png` content type. -/
def handleMemoImage (env : Env) (fs : FS) (paths : StoragePaths)
    (extractedId : Option String) : HttpResponse :=
  match extractedId with
  | none => ⟨400, .text "Bad request"⟩
  | some imageId =>
    match imagePathForId paths imageId with
    | .error _ => ⟨400, .text "Bad request"⟩
    | .ok imagePath =>
      match fsRead env fs imagePath with
      | .ok d => ⟨200, .binary d⟩
      | .error _ => ⟨404, .text "Not found"⟩

/-- Concrete storage paths used by the witnesses. -/
def paths0 : StoragePaths := ⟨"m", "d"⟩

/-- Concrete environment used by the witnesses: every primitive succeeds,
clock readings `"T"` / `5`, generated identifier `"u"`. -/
def envQ : Env := ⟨true, true, true, none, .rawText "x", "T", 5, "u"⟩

/-- A filesystem whose document file (under `paths0`) holds text that is not
valid JSON. -/
def fs0 : FS := [("m", .rawText "broken")]

/-- A filesystem whose document file holds the serialization of a record
whose `doc` field is `null` (well-formed `version` and `updatedAt`). -/
def fsNull : FS := [("m", .jsonText (recordJson "T" Json.null))]

/-- Environment in which directory creation fails (e.g. the storage root is
not writable) and every other primitive succeeds. -/
def envBad : Env := ⟨false, true, true, none, .rawText "x", "T", 5, "u"⟩

/-- Environment for a later load: different clock readings than `envQ`. -/
def envL0 : Env := ⟨true, true, true, none, .rawText "x", "T2", 7, "u2"⟩

theorem fsLookup_fsRemove (fs : FS) (p q : String) :
    fsLookup (fsRemove fs p) q = if p = q then none else fsLookup fs q := by
  induction fs with
  | nil => simp [fsRemove, fsLookup]
  | cons kv rest ih =>
    obtain ⟨k, v⟩ := kv
    by_cases hk : k = p <;> by_cases hq : p = q <;>
      simp_all [fsRemove, fsLookup]

theorem fsLookup_fsWrite (fs : FS) (p q : String) (d : FileData) :
    fsLookup (fsWrite fs p d) q = if p = q then some d else fsLookup fs q := by
  by_cases h : p = q <;> simp [fsWrite, fsLookup, fsLookup_fsRemove, h]

theorem fsLookup_fsWrite_self (fs : FS) (p : String) (d : FileData) :
    fsLookup (fsWrite fs p d) p = some d := by
  rw [fsLookup_fsWrite, if_pos rfl]

theorem fsLookup_fsWrite_ne (fs : FS) (p q : String) (d : FileData) (h : p ≠ q) :
    fsLookup (fsWrite fs p d) q = fsLookup fs q := by
  rw [fsLookup_fsWrite, if_neg h]

/-- The quarantine path differs from the document path (it is the document
path extended by a nonempty suffix). -/
theorem quarantinePath_ne_memo (paths : StoragePaths) (ms : Nat) :
    quarantinePath paths ms ≠ paths.memoFilePath := by
  intro h
  have hl := congrArg String.length h
  rw [quarantinePath, String.length_append, String.length_append] at hl
  have h9 : (".corrupt-").length = 9 := rfl
  omega

/-- The temporary path differs from the document path. -/
theorem tempPath_ne_memo (paths : StoragePaths) :
    tempPathOf paths ≠ paths.memoFilePath := by
  intro h
  have hl := congrArg String.length h
  rw [tempPathOf, String.length_append] at hl
  have h4 : (".tmp").length = 4 := rfl
  omega

/-- Serializing `recordJson t d` and checking its shape succeeds exactly when
`d` is truthy. -/
theorem isMemoRecord_recordJson (t : String) (d : Json) :
    isMemoRecord (recordJson t d) = d.isTruthy := by
  simp [isMemoRecord, recordJson, Json.isObjectLike, Json.getField, lookupField,
        versionIsOne, updatedAtIsString, truthyOpt]

/-- Helper: the valid-record path of `loadMemo`. -/
theorem loadMemo_valid (env : Env) (fs : FS) (paths : StoragePaths) (j : Json)
    (hm : env.mkdirOk = true) (hr : env.readErr = none)
    (hf : fsLookup fs paths.memoFilePath = some (.jsonText j))
    (hj : isMemoRecord j = true) :
    loadMemo env fs paths = .ok (j, fs) := by
  simp [loadMemo, ensureStorageDirsOk, hm, fsRead, hr, hf, parseJson, hj]

/-- Helper: the invalid-content path of `loadMemo` (syntactically invalid or
shape-invalid), ending in `loadMemoCatch` with no error code. -/
theorem loadMemo_invalid (env : Env) (fs : FS) (paths : StoragePaths) (d : FileData)
    (hm : env.mkdirOk = true) (hr : env.readErr = none)
    (hf : fsLookup fs paths.memoFilePath = some d)
    (hbad : ∀ j, parseJson d = some j → isMemoRecord j = false) :
    loadMemo env fs paths =
      .ok (fallbackRecord env,
           if env.renameOk then fsRename fs paths.memoFilePath (quarantinePath paths env.nowMs)
           else fs) := by
  cases d with
  | jsonText j =>
    have hj := hbad j rfl
    simp [loadMemo, ensureStorageDirsOk, hm, fsRead, hr, hf, parseJson, hj, loadMemoCatch]
  | rawText s =>
    simp [loadMemo, ensureStorageDirsOk, hm, fsRead, hr, hf, parseJson, loadMemoCatch]
  | bytes bs =>
    simp [loadMemo, ensureStorageDirsOk, hm, fsRead, hr, hf, parseJson, loadMemoCatch]

/-- Helper: the absent-file path of `loadMemo`. -/
theorem loadMemo_absent (env : Env) (fs : FS) (paths : StoragePaths)
    (hm : env.mkdirOk = true) (hr : env.readErr = none)
    (hf : fsLookup fs paths.memoFilePath = none) :
    loadMemo env fs paths = .ok (fallbackRecord env, fs) := by
  simp [loadMemo, ensureStorageDirsOk, hm, fsRead, hr, hf, loadMemoCatch]

/-- C6: for non-positive inputs `normalizeImageDimensions` returns `(0, 0)`;
for `0 < width ≤ 640` and `height > 0` it returns the input unchanged; for
`width > 640` and `height > 0` it returns `(640, round (height * 640 / width))`,
each scaled value rounded to the nearest integer rather than truncated. -/
theorem normalizeImageDimensions_spec (w h : ℚ) :
    ((w ≤ 0 ∨ h ≤ 0) → normalizeImageDimensions w h = ⟨0, 0⟩)
    ∧ (0 < w → w ≤ 640 → 0 < h → normalizeImageDimensions w h = ⟨w, h⟩)
    ∧ (640 < w → 0 < h → normalizeImageDimensions w h =
        ⟨640, ((round (h * 640 / w) : ℤ) : ℚ)⟩) := by
  refine ⟨fun h1 => ?_, fun hw hw640 hh => ?_, fun hw hh => ?_⟩
  · simp only [normalizeImageDimensions, if_pos h1]
  · have hcond : ¬(w ≤ 0 ∨ h ≤ 0) := by push_neg; exact ⟨hw, hh⟩
    simp only [normalizeImageDimensions, if_neg hcond, MAX_IMAGE_WIDTH]
    rw [if_pos hw640]
  · have hcond : ¬(w ≤ 0 ∨ h ≤ 0) := by push_neg; constructor <;> linarith
    have h640 : ¬ w ≤ (640 : ℚ) := not_le.mpr hw
    have hw0 : w ≠ 0 := by positivity
    simp only [normalizeImageDimensions, MAX_IMAGE_WIDTH, if_neg hcond, if_neg h640]
    have h1 : w * (640 / w) = 640 := by field_simp
    have h2 : h * (640 / w) = h * 640 / w := by ring
    rw [h1, h2]
    norm_num

/-- C6 witness: `normalizeImageDimensions` at `(0, 5)`, `(300, 150)` and
`(1280, 5)`; the last shows genuine round-to-nearest
(`5 * 640 / 1280 = 2.5`, rounded to `3`, where truncation would give `2`). -/
theorem normalizeImageDimensions_spec_witness :
    normalizeImageDimensions 0 5 = ⟨0, 0⟩
    ∧ normalizeImageDimensions 300 150 = ⟨300, 150⟩
    ∧ normalizeImageDimensions 1280 5 = ⟨640, ((round ((5 : ℚ) * 640 / 1280) : ℤ) : ℚ)⟩
    ∧ ((round ((5 : ℚ) * 640 / 1280) : ℤ) : ℚ) = 3 :=
  ⟨(normalizeImageDimensions_spec 0 5).1 (Or.inl le_rfl),
   (normalizeImageDimensions_spec 300 150).2.1 (by norm_num) (by norm_num) (by norm_num),
   (normalizeImageDimensions_spec 1280 5).2.2 (by norm_num) (by norm_num),
   by norm_num [round_eq]⟩

/-- C1: every identifier that is empty or contains a character outside
`[0-9a-fA-F-]` is rejected by `isValidImageId`, and `imagePathForId` then
fails with `invalidIdentifier` — purely, before constructing any path and
without any filesystem access (the function takes no filesystem); every
identifier matching the grammar is accepted and mapped to
`<imagesDir>/<id>.png`. -/
theorem imagePathForId_spec (paths : StoragePaths) (id : String) :
    ((id.data = [] ∨ ∃ c ∈ id.data, isHexHyphenChar c = false) →
      isValidImageId id = false
      ∧ imagePathForId paths id = .error .invalidIdentifier)
    ∧ ((id.data ≠ [] ∧ ∀ c ∈ id.data, isHexHyphenChar c = true) →
      isValidImageId id = true
      ∧ imagePathForId paths id = .ok (pathJoin paths.imagesDirPath (id ++ ".png"))) := by
  constructor
  · rintro (hemp | ⟨c, hc, hcf⟩)
    · have hv : isValidImageId id = false := by
        simp [isValidImageId, hemp]
      exact ⟨hv, by simp [imagePathForId, hv]⟩
    · have hall : id.data.all isHexHyphenChar = false := by
        rw [← Bool.not_eq_true, List.all_eq_true]
        push_neg
        exact ⟨c, hc, by simp [hcf]⟩
      have hv : isValidImageId id = false := by
        simp [isValidImageId, hall]
      exact ⟨hv, by simp [imagePathForId, hv]⟩
  · rintro ⟨hne, hall⟩
    have hv : isValidImageId id = true := by
      simp only [isValidImageId, List.isEmpty_iff, Bool.and_eq_true, Bool.not_eq_true',
        decide_eq_false_iff_not, List.all_eq_true]
      exact ⟨by simpa using hne, hall⟩
    exact ⟨hv, by simp [imagePathForId, hv]⟩

/-- C1 witness: the identifier `..` (a path-traversal attempt) is rejected,
and the valid identifier `a1-f` maps to its image path. -/
theorem imagePathForId_spec_witness :
    (isValidImageId ".." = false
      ∧ imagePathForId paths0 ".." = .error .invalidIdentifier)
    ∧ (isValidImageId "a1-f" = true
      ∧ imagePathForId paths0 "a1-f" = .ok (pathJoin paths0.imagesDirPath ("a1-f" ++ ".png"))) :=
  ⟨(imagePathForId_spec paths0 "..").1 (Or.inr ⟨'.', by decide, by decide⟩),
   (imagePathForId_spec paths0 "a1-f").2 ⟨by decide, by decide⟩⟩

/-- C4: when the document file exists but holds syntactically invalid JSON or
a value failing the record-shape check, `loadMemo` renames it to
`<originalName>.corrupt-<ms>` (same directory, since the name is the file
name extended by a suffix), returns the fresh default record, and the
original bytes survive unchanged under the quarantine name; if the rename
fails, the failure is swallowed and the default record is still returned. -/
theorem loadMemo_quarantine_spec (env : Env) (fs : FS) (paths : StoragePaths) (d : FileData)
    (hm : env.mkdirOk = true) (hr : env.readErr = none)
    (hf : fsLookup fs paths.memoFilePath = some d)
    (hbad : ∀ j, parseJson d = some j → isMemoRecord j = false) :
    (env.renameOk = true →
      loadMemo env fs paths =
        .ok (fallbackRecord env,
             fsRename fs paths.memoFilePath (quarantinePath paths env.nowMs))
      ∧ fsLookup (fsRename fs paths.memoFilePath (quarantinePath paths env.nowMs))
          (quarantinePath paths env.nowMs) = some d
      ∧ fsLookup (fsRename fs paths.memoFilePath (quarantinePath paths env.nowMs))
          paths.memoFilePath = none)
    ∧ (env.renameOk = false → loadMemo env fs paths = .ok (fallbackRecord env, fs)) := by
  have hq := quarantinePath_ne_memo paths env.nowMs
  refine ⟨fun hren => ?_, fun hren => ?_⟩
  · have base := loadMemo_invalid env fs paths d hm hr hf hbad
    rw [hren] at base
    simp only [if_true] at base
    refine ⟨base, ?_, ?_⟩
    · rw [fsRename, hf]
      exact fsLookup_fsWrite_self _ _ _
    · rw [fsRename, hf, fsLookup_fsWrite_ne _ _ _ _ hq, fsLookup_fsRemove, if_pos rfl]
  · have base := loadMemo_invalid env fs paths d hm hr hf hbad
    rw [hren] at base
    simpa using base

/-- C4 witness: a document file holding the non-JSON text `broken` is
quarantined and the default record is returned. -/
theorem loadMemo_quarantine_spec_witness :
    loadMemo envQ fs0 paths0 =
      .ok (fallbackRecord envQ,
           fsRename fs0 paths0.memoFilePath (quarantinePath paths0 5))
    ∧ fsLookup (fsRename fs0 paths0.memoFilePath (quarantinePath paths0 5))
        (quarantinePath paths0 5) = some (.rawText "broken") :=
  ⟨(((loadMemo_quarantine_spec envQ fs0 paths0 (.rawText "broken") rfl rfl rfl
      (fun _ h => Option.noConfusion h)).1 rfl)).1,
   (((loadMemo_quarantine_spec envQ fs0 paths0 (.rawText "broken") rfl rfl rfl
      (fun _ h => Option.noConfusion h)).1 rfl)).2.1⟩

/-- C7: on a root with no document file, `loadMemo` succeeds (absence is not
an error) with a fresh record: `version = 1`, `updatedAt` the current
`toISOString` clock reading, and the default empty single-paragraph
document. -/
theorem loadMemo_default_spec (env : Env) (fs : FS) (paths : StoragePaths)
    (hm : env.mkdirOk = true) (hr : env.readErr = none)
    (hf : fsLookup fs paths.memoFilePath = none) :
    loadMemo env fs paths = .ok (recordJson (nowIso env) defaultDocJson, fs)
    ∧ (recordJson (nowIso env) defaultDocJson).getField "version" = some (.num 1)
    ∧ (recordJson (nowIso env) defaultDocJson).getField "updatedAt"
        = some (.str (nowIso env))
    ∧ (recordJson (nowIso env) defaultDocJson).getField "doc" = some defaultDocJson := by
  refine ⟨loadMemo_absent env fs paths hm hr hf, ?_, ?_, ?_⟩ <;>
    simp [recordJson, Json.getField, lookupField]

/-- C7 witness: loading from the empty filesystem yields the default
record. -/
theorem loadMemo_default_spec_witness :
    loadMemo envQ [] paths0 = .ok (recordJson (nowIso envQ) defaultDocJson, []) :=
  (loadMemo_default_spec envQ [] paths0 rfl rfl rfl).1

/-- C10: the record-shape check treats any falsy `doc` as invalid: for
`doc` equal to `null`, `false`, `0` or the empty string — with `version = 1`
and a string `updatedAt` present — `isMemoRecord` fails, and `loadMemo`
quarantines the file and returns the default record. -/
theorem isMemoRecord_falsy_doc_spec (t : String) (d : Json)
    (hd : d = Json.null ∨ d = .bool false ∨ d = .num 0 ∨ d = .str "") :
    isMemoRecord (recordJson t d) = false
    ∧ ∀ env fs paths, env.mkdirOk = true → env.readErr = none → env.renameOk = true →
        fsLookup fs paths.memoFilePath = some (.jsonText (recordJson t d)) →
        loadMemo env fs paths =
          .ok (fallbackRecord env,
               fsRename fs paths.memoFilePath (quarantinePath paths env.nowMs)) := by
  have hfalse : isMemoRecord (recordJson t d) = false := by
    rw [isMemoRecord_recordJson]
    rcases hd with rfl | rfl | rfl | rfl <;> simp [Json.isTruthy]
  refine ⟨hfalse, fun env fs paths hm hr hren hf => ?_⟩
  have base := loadMemo_invalid env fs paths _ hm hr hf
    (fun j h => by
      simp only [parseJson, Option.some.injEq] at h
      rw [← h]
      exact hfalse)
  rw [hren] at base
  simpa using base

/-- C10 witness: a stored record `{version: 1, updatedAt: T, doc: null}` is
classified corrupt and replaced by the default record. -/
theorem isMemoRecord_falsy_doc_spec_witness :
    isMemoRecord (recordJson "T" Json.null) = false
    ∧ loadMemo envQ fsNull paths0 =
        .ok (fallbackRecord envQ,
             fsRename fsNull paths0.memoFilePath (quarantinePath paths0 5)) :=
  ⟨(isMemoRecord_falsy_doc_spec "T" Json.null (Or.inl rfl)).1,
   (isMemoRecord_falsy_doc_spec "T" Json.null (Or.inl rfl)).2 envQ fsNull paths0
     rfl rfl rfl rfl⟩

/-- Helper: the catch block always succeeds, returning the fallback record. -/
theorem loadMemoCatch_ok (env : Env) (fs : FS) (paths : StoragePaths) (c : Option String) :
    ∃ fs', loadMemoCatch env fs paths c = .ok (fallbackRecord env, fs') := by
  unfold loadMemoCatch
  by_cases h : c = some "ENOENT"
  · rw [if_pos h]
    exact ⟨fs, rfl⟩
  · rw [if_neg h]
    exact ⟨_, rfl⟩

/-- C5 (amended): provided directory creation succeeds, `loadMemo` returns a
record for every filesystem state — file absent, file corrupt, read error —
and the record is the parsed stored record when it is valid, the fallback
default otherwise.  (When directory creation fails, `loadMemo` propagates
the failure; see the counterexample.) -/
theorem loadMemo_total_spec (env : Env) (fs : FS) (paths : StoragePaths)
    (hm : env.mkdirOk = true) :
    ∃ r fs', loadMemo env fs paths = .ok (r, fs')
      ∧ (r = fallbackRecord env
         ∨ ∃ j, fsLookup fs paths.memoFilePath = some (.jsonText j)
             ∧ isMemoRecord j = true ∧ r = j) := by
  simp only [loadMemo, ensureStorageDirsOk, hm, Bool.not_true, Bool.false_eq_true,
    if_false]
  cases hre : env.readErr with
  | some code =>
    simp only [fsRead, hre]
    obtain ⟨fs', hc⟩ := loadMemoCatch_ok env fs paths (some code)
    exact ⟨_, fs', hc, Or.inl rfl⟩
  | none =>
    simp only [fsRead, hre]
    cases hlk : fsLookup fs paths.memoFilePath with
    | none =>
      obtain ⟨fs', hc⟩ := loadMemoCatch_ok env fs paths (some "ENOENT")
      exact ⟨_, fs', hc, Or.inl rfl⟩
    | some d =>
      cases d with
      | jsonText j =>
        simp only [parseJson]
        cases hj : isMemoRecord j with
        | true => exact ⟨j, fs, by simp [hj], Or.inr ⟨j, rfl, hj, rfl⟩⟩
        | false =>
          obtain ⟨fs', hc⟩ := loadMemoCatch_ok env fs paths none
          exact ⟨_, fs', by simp [hj, hc], Or.inl rfl⟩
      | rawText s =>
        simp only [parseJson]
        obtain ⟨fs', hc⟩ := loadMemoCatch_ok env fs paths none
        exact ⟨_, fs', hc, Or.inl rfl⟩
      | bytes bs =>
        simp only [parseJson]
        obtain ⟨fs', hc⟩ := loadMemoCatch_ok env fs paths none
        exact ⟨_, fs', hc, Or.inl rfl⟩

/-- C5 witness: on the empty filesystem the load succeeds. -/
theorem loadMemo_total_spec_witness :
    ∃ r fs', loadMemo envQ [] paths0 = .ok (r, fs')
      ∧ (r = fallbackRecord envQ
         ∨ ∃ j, fsLookup ([] : FS) paths0.memoFilePath = some (.jsonText j)
             ∧ isMemoRecord j = true ∧ r = j) :=
  loadMemo_total_spec envQ [] paths0 rfl

/-- C5 counterexample: the claim as stated — `loadMemo` never fails for
*every* filesystem state — is false: when directory creation fails
(`ensureStorageDirs` runs outside the try/catch), the error propagates. -/
theorem loadMemo_total_counterexample :
    loadMemo envBad [] paths0 = .error .mkdirFailed := rfl

/-- C2: every filesystem state traversed by `saveMemo` holds, at the document
path, either the previous content or the complete new serialized record —
never partial data (a torn write can only touch the temporary sibling path);
on any failure the document path still holds the previous content, and on
success it holds exactly the new record, whose `updatedAt` is returned. -/
theorem saveMemo_atomic_spec (env : Env) (fs : FS) (paths : StoragePaths) (doc : Json) :
    ((saveMemo env fs paths doc).2 ∈ saveMemoStates env fs paths doc)
    ∧ (∀ s ∈ saveMemoStates env fs paths doc,
        fsLookup s paths.memoFilePath = fsLookup fs paths.memoFilePath
        ∨ fsLookup s paths.memoFilePath = some (.jsonText (recordJson (nowIso env) doc)))
    ∧ (∀ e, (saveMemo env fs paths doc).1 = .error e →
        fsLookup (saveMemo env fs paths doc).2 paths.memoFilePath
          = fsLookup fs paths.memoFilePath)
    ∧ (∀ resp, (saveMemo env fs paths doc).1 = .ok resp →
        fsLookup (saveMemo env fs paths doc).2 paths.memoFilePath
          = some (.jsonText (recordJson (nowIso env) doc))
        ∧ resp.updatedAt = nowIso env) := by
  have htne := tempPath_ne_memo paths
  cases hm : env.mkdirOk with
  | false =>
    have hs1 : saveMemo env fs paths doc = (.error .mkdirFailed, fs) := by
      simp [saveMemo, ensureStorageDirsOk, hm]
    have hs2 : saveMemoStates env fs paths doc = [fs] := by
      simp [saveMemoStates, ensureStorageDirsOk, hm]
    rw [hs1, hs2]
    refine ⟨by simp, ?_, ?_, ?_⟩
    · intro s hs
      simp only [List.mem_singleton] at hs
      subst hs
      exact Or.inl rfl
    · intro e _
      rfl
    · intro resp h
      exact Except.noConfusion h
  | true =>
    cases hw : env.writeOk with
    | false =>
      have hs1 : saveMemo env fs paths doc
          = (.error .writeFailed, fsWrite fs (tempPathOf paths) env.remnant) := by
        simp [saveMemo, ensureStorageDirsOk, hm, hw]
      have hs2 : saveMemoStates env fs paths doc
          = [fs, fsWrite fs (tempPathOf paths) env.remnant] := by
        simp [saveMemoStates, ensureStorageDirsOk, hm, hw]
      rw [hs1, hs2]
      refine ⟨by simp, ?_, ?_, ?_⟩
      · intro s hs
        simp only [List.mem_cons, List.mem_singleton, List.not_mem_nil, or_false] at hs
        rcases hs with rfl | rfl
        · exact Or.inl rfl
        · exact Or.inl (fsLookup_fsWrite_ne _ _ _ _ htne)
      · intro e _
        exact fsLookup_fsWrite_ne _ _ _ _ htne
      · intro resp h
        exact Except.noConfusion h
    | true =>
      cases hre : env.renameOk with
      | false =>
        have hs1 : saveMemo env fs paths doc
            = (.error .renameFailed,
               fsWrite fs (tempPathOf paths) (.jsonText (recordJson (nowIso env) doc))) := by
          simp [saveMemo, ensureStorageDirsOk, hm, hw, hre]
        have hs2 : saveMemoStates env fs paths doc
            = [fs, fsWrite fs (tempPathOf paths) (.jsonText (recordJson (nowIso env) doc))] := by
          simp [saveMemoStates, ensureStorageDirsOk, hm, hw, hre]
        rw [hs1, hs2]
        refine ⟨by simp, ?_, ?_, ?_⟩
        · intro s hs
          simp only [List.mem_cons, List.mem_singleton, List.not_mem_nil, or_false] at hs
          rcases hs with rfl | rfl
          · exact Or.inl rfl
          · exact Or.inl (fsLookup_fsWrite_ne _ _ _ _ htne)
        · intro e _
          exact fsLookup_fsWrite_ne _ _ _ _ htne
        · intro resp h
          exact Except.noConfusion h
      | true =>
        have hs1 : saveMemo env fs paths doc
            = (.ok ⟨true, nowIso env⟩,
               fsRename
                 (fsWrite fs (tempPathOf paths) (.jsonText (recordJson (nowIso env) doc)))
                 (tempPathOf paths) paths.memoFilePath) := by
          simp [saveMemo, ensureStorageDirsOk, hm, hw, hre]
        have hs2 : saveMemoStates env fs paths doc
            = [fs, fsWrite fs (tempPathOf paths) (.jsonText (recordJson (nowIso env) doc)),
               fsRename
                 (fsWrite fs (tempPathOf paths) (.jsonText (recordJson (nowIso env) doc)))
                 (tempPathOf paths) paths.memoFilePath] := by
          simp [saveMemoStates, ensureStorageDirsOk, hm, hw, hre]
        have hfinal :
            fsLookup
              (fsRename
                (fsWrite fs (tempPathOf paths) (.jsonText (recordJson (nowIso env) doc)))
                (tempPathOf paths) paths.memoFilePath)
              paths.memoFilePath
            = some (.jsonText (recordJson (nowIso env) doc)) := by
          simp only [fsRename, fsLookup_fsWrite_self]
        rw [hs1, hs2]
        refine ⟨by simp, ?_, ?_, ?_⟩
        · intro s hs
          simp only [List.mem_cons, List.mem_singleton, List.not_mem_nil, or_false] at hs
          rcases hs with rfl | rfl | rfl
          · exact Or.inl rfl
          · exact Or.inl (fsLookup_fsWrite_ne _ _ _ _ htne)
          · exact Or.inr hfinal
        · intro e h
          exact Except.noConfusion h
        · intro resp h
          injection h with h'
          subst h'
          exact ⟨hfinal, rfl⟩

/-- C2 witness: a concrete successful save on the empty filesystem — the
final state is among the traversed states, the initial state is unchanged at
the document path, and the final state holds the new record. -/
theorem saveMemo_atomic_spec_witness :
    ((saveMemo envQ [] paths0 (Json.obj [])).2 ∈ saveMemoStates envQ [] paths0 (Json.obj []))
    ∧ (fsLookup ([] : FS) paths0.memoFilePath = fsLookup ([] : FS) paths0.memoFilePath
       ∨ fsLookup ([] : FS) paths0.memoFilePath
           = some (.jsonText (recordJson (nowIso envQ) (Json.obj []))))
    ∧ (fsLookup (saveMemo envQ [] paths0 (Json.obj [])).2 paths0.memoFilePath
        = some (.jsonText (recordJson (nowIso envQ) (Json.obj [])))
       ∧ (SaveMemoResponse.mk true (nowIso envQ)).updatedAt = nowIso envQ) :=
  ⟨(saveMemo_atomic_spec envQ [] paths0 (Json.obj [])).1,
   (saveMemo_atomic_spec envQ [] paths0 (Json.obj [])).2.1 []
     (by simp [saveMemoStates, envQ, ensureStorageDirsOk]),
   (saveMemo_atomic_spec envQ [] paths0 (Json.obj [])).2.2.2 ⟨true, nowIso envQ⟩ rfl⟩

/-- C3 (amended): for every document `d` that is truthy as a JavaScript value
(in particular every object tree, the declared type of `MemoDoc`), after a
successful `saveMemo` the subsequent `loadMemo` returns the stored record
verbatim: its `doc` equals `d` exactly, its `version` is `1` and its
`updatedAt` is the one `saveMemo` reported.  (For falsy `d` — `null`,
`false`, `0`, the empty string — the claim fails: see the counterexample.) -/
theorem saveMemo_loadMemo_roundtrip_spec (envS envL : Env) (fs : FS)
    (paths : StoragePaths) (doc : Json)
    (hmS : envS.mkdirOk = true) (hwS : envS.writeOk = true) (hrS : envS.renameOk = true)
    (hmL : envL.mkdirOk = true) (hrL : envL.readErr = none)
    (htruthy : doc.isTruthy = true) :
    ∃ resp : SaveMemoResponse,
      (saveMemo envS fs paths doc).1 = .ok resp
      ∧ resp.updatedAt = nowIso envS
      ∧ loadMemo envL (saveMemo envS fs paths doc).2 paths
          = .ok (recordJson resp.updatedAt doc, (saveMemo envS fs paths doc).2)
      ∧ (recordJson resp.updatedAt doc).getField "doc" = some doc
      ∧ (recordJson resp.updatedAt doc).getField "version" = some (.num 1) := by
  have hsave : saveMemo envS fs paths doc
      = (.ok ⟨true, nowIso envS⟩,
         fsRename
           (fsWrite fs (tempPathOf paths) (.jsonText (recordJson (nowIso envS) doc)))
           (tempPathOf paths) paths.memoFilePath) := by
    simp [saveMemo, ensureStorageDirsOk, hmS, hwS, hrS]
  have hlk :
      fsLookup (saveMemo envS fs paths doc).2 paths.memoFilePath
        = some (.jsonText (recordJson (nowIso envS) doc)) := by
    rw [hsave]
    simp only [fsRename, fsLookup_fsWrite_self]
  have hrec : isMemoRecord (recordJson (nowIso envS) doc) = true := by
    rw [isMemoRecord_recordJson]
    exact htruthy
  refine ⟨⟨true, nowIso envS⟩, by rw [hsave], rfl, ?_, ?_, ?_⟩
  · exact loadMemo_valid envL _ paths _ hmL hrL hlk hrec
  · simp [recordJson, Json.getField, lookupField]
  · simp [recordJson, Json.getField, lookupField]

/-- C3 witness: round trip of the truthy document `{type: doc}`. -/
theorem saveMemo_loadMemo_roundtrip_spec_witness :
    ∃ resp : SaveMemoResponse,
      (saveMemo envQ [] paths0 (Json.obj [("type", .str "doc")])).1 = .ok resp
      ∧ resp.updatedAt = nowIso envQ
      ∧ loadMemo envL0 (saveMemo envQ [] paths0 (Json.obj [("type", .str "doc")])).2 paths0
          = .ok (recordJson resp.updatedAt (Json.obj [("type", .str "doc")]),
                 (saveMemo envQ [] paths0 (Json.obj [("type", .str "doc")])).2)
      ∧ (recordJson resp.updatedAt (Json.obj [("type", .str "doc")])).getField "doc"
          = some (Json.obj [("type", .str "doc")])
      ∧ (recordJson resp.updatedAt (Json.obj [("type", .str "doc")])).getField "version"
          = some (.num 1) :=
  saveMemo_loadMemo_roundtrip_spec envQ envL0 [] paths0 (Json.obj [("type", .str "doc")])
    rfl rfl rfl rfl rfl rfl

/-- C3 counterexample: the claim quantifies over *every* JSON-representable
tree, but for the JSON-representable document `null` a successful save is
followed by a load that returns the default document (the saved record is
even quarantined), so the loaded `doc` is not `null`. -/
theorem saveMemo_loadMemo_roundtrip_counterexample :
    (saveMemo envQ [] paths0 Json.null).1 = .ok ⟨true, "T"⟩
    ∧ loadMemo envL0 (saveMemo envQ [] paths0 Json.null).2 paths0
        = .ok (recordJson "T2" defaultDocJson,
               fsRename (saveMemo envQ [] paths0 Json.null).2 paths0.memoFilePath
                 (quarantinePath paths0 7))
    ∧ (recordJson "T2" defaultDocJson).getField "doc" = some defaultDocJson
    ∧ some defaultDocJson ≠ some Json.null := by
  refine ⟨rfl, ?_, rfl, ?_⟩
  · rfl
  · intro h
    exact Json.noConfusion (Option.some.inj h)

/-- C8: `saveImage` writes the payload bytes unmodified (byte-for-byte) to
`<imagesDir>/<id>.png` and returns the generated id, the retrieval
reference `memo-image://<id>`, and the normalized dimensions; reported
dimensions 1400 x 700 normalize to 640 x 320. -/
theorem saveImage_spec (env : Env) (fs : FS) (paths : StoragePaths)
    (buf : List Nat) (w h : ℚ) (hm : env.mkdirOk = true) (hw : env.writeOk = true) :
    (saveImage env fs paths buf w h).1
      = .ok ⟨env.freshId, "memo-image://" ++ env.freshId,
             (normalizeImageDimensions w h).width, (normalizeImageDimensions w h).height⟩
    ∧ fsLookup (saveImage env fs paths buf w h).2
        (pathJoin paths.imagesDirPath (env.freshId ++ ".png")) = some (.bytes buf)
    ∧ normalizeImageDimensions 1400 700 = ⟨640, 320⟩ := by
  have hsave : saveImage env fs paths buf w h
      = (.ok ⟨env.freshId, "memo-image://" ++ env.freshId,
              (normalizeImageDimensions w h).width, (normalizeImageDimensions w h).height⟩,
         fsWrite fs (pathJoin paths.imagesDirPath (env.freshId ++ ".png")) (.bytes buf)) := by
    simp [saveImage, ensureStorageDirsOk, hm, hw]
  refine ⟨by rw [hsave], ?_, ?_⟩
  · rw [hsave]
    exact fsLookup_fsWrite_self _ _ _
  · norm_num [normalizeImageDimensions, MAX_IMAGE_WIDTH, round_eq]

/-- C8 witness: a concrete 4-byte payload with reported dimensions
1400 x 700 is stored byte-for-byte and answered with dimensions 640 x 320. -/
theorem saveImage_spec_witness :
    (saveImage envQ [] paths0 [137, 80, 78, 71] 1400 700).1
      = .ok ⟨"u", "memo-image://" ++ "u",
             (normalizeImageDimensions 1400 700).width,
             (normalizeImageDimensions 1400 700).height⟩
    ∧ fsLookup (saveImage envQ [] paths0 [137, 80, 78, 71] 1400 700).2
        (pathJoin paths0.imagesDirPath ("u" ++ ".png")) = some (.bytes [137, 80, 78, 71]) :=
  ⟨(saveImage_spec envQ [] paths0 [137, 80, 78, 71] 1400 700 rfl rfl).1,
   (saveImage_spec envQ [] paths0 [137, 80, 78, 71] 1400 700 rfl rfl).2.1⟩

/-- C9: the retrieval boundary classifies failures into two distinct classes:
an identifier failing the token grammar is answered with the client-error
response (status 400, before any filesystem access — the 400 branch never
consults the filesystem), while a grammatically valid identifier whose file
is absent is answered with the not-found response (status 404); the two
responses are distinct. -/
theorem handleMemoImage_spec (env : Env) (fs : FS) (paths : StoragePaths) (id : String) :
    (isValidImageId id = false →
      handleMemoImage env fs paths (some id) = ⟨400, .text "Bad request"⟩)
    ∧ (isValidImageId id = true → env.readErr = none →
      fsLookup fs (pathJoin paths.imagesDirPath (id ++ ".png")) = none →
      handleMemoImage env fs paths (some id) = ⟨404, .text "Not found"⟩)
    ∧ (HttpResponse.mk 400 (.text "Bad request") ≠ HttpResponse.mk 404 (.text "Not found")) := by
  refine ⟨fun hv => ?_, fun hv hr hlk => ?_, ?_⟩
  · simp [handleMemoImage, imagePathForId, hv]
  · simp [handleMemoImage, imagePathForId, hv, fsRead, hr, hlk]
  · intro h
    exact absurd (congrArg HttpResponse.status h) (by decide)

/-- C9 witness: the invalid identifier `..` gets the 400 response and the
valid identifier `abc` with no stored file gets the 404 response. -/
theorem handleMemoImage_spec_witness :
    handleMemoImage envQ [] paths0 (some "..") = ⟨400, .text "Bad request"⟩
    ∧ handleMemoImage envQ [] paths0 (some "abc") = ⟨404, .text "Not found"⟩ :=
  ⟨(handleMemoImage_spec envQ [] paths0 "..").1 (by decide),
   (handleMemoImage_spec envQ [] paths0 "abc").2.1 (by decide) rfl rfl⟩
